import Mathlib

/-!
Verification of the `prepare_training_data.py` join-and-project pipeline
(BI Sales Risk training-data preparation).

The pipeline is embedded shallowly: a table is a column list plus rows,
each row an association list from column names to optional scalar cells
(`none` models pandas missing data, i.e. NaN/None).  Every definition below
is translated from the source script: key normalization, the deduplicating
left join, target derivation, the tenant filter, the three mode projections,
and the partitioned output-path resolution.  pandas-specific semantics are
kept: `merge` and `drop_duplicates` treat missing join keys as equal to each
other; assigning a length-0 ndarray to a non-empty frame raises a
`ValueError` (which the script does not catch), while assigning an empty
Series aligns by index and yields an all-missing column.
-/

set_option maxHeartbeats 1000000

namespace PrepareTrainingData

/-- A scalar cell value: a string or an exact number (modelling both the
integer and floating-point columns of the source tables). -/
inductive Value where
  | str (s : String)
  | num (q : Rat)
deriving DecidableEq, Repr

/-- A cell; `none` models pandas missing data (NaN / None / NaT). -/
abbrev Cell := Option Value

/-- A row: an association list from column names to cells. -/
abbrev Row := List (String × Cell)

/-- Read a cell from a row; an absent binding reads as missing. -/
def Row.getCell (r : Row) (c : String) : Cell :=
  match r with
  | [] => none
  | (c', v) :: rest => if c' = c then v else Row.getCell rest c

/-- Write a cell in a row (pandas column assignment restricted to one row):
overwrite the existing binding, or append a new one. -/
def Row.setCell (r : Row) (c : String) (v : Cell) : Row :=
  match r with
  | [] => [(c, v)]
  | (c', v') :: rest =>
    if c' = c then (c, v) :: rest else (c', v') :: Row.setCell rest c v

/-- An in-memory columnar table (a pandas DataFrame): an ordered list of
column names and a list of rows. -/
structure Table where
  cols : List String
  rows : List Row
deriving DecidableEq, Repr

/-- pandas `df[c] = scalar`: set a whole column to one constant cell,
appending the column name if it is new. -/
def Table.setCol (t : Table) (c : String) (v : Cell) : Table :=
  { cols := if t.cols.contains c then t.cols else t.cols ++ [c]
    rows := t.rows.map (fun r => r.setCell c v) }

/-- pandas `df[c] = <series computed row-wise>`: set a column from a
row-indexed computation. -/
def Table.setColWith (t : Table) (c : String) (f : Row → Cell) : Table :=
  { cols := if t.cols.contains c then t.cols else t.cols ++ [c]
    rows := t.rows.map (fun r => r.setCell c (f r)) }

/-- pandas `df[[cs]]`: keep exactly the listed columns, in the listed order. -/
def Table.selectCols (t : Table) (cs : List String) : Table :=
  { cols := cs
    rows := t.rows.map (fun r => cs.map (fun c => (c, r.getCell c))) }

/-- The composite join key of a row: `(tenantId, opportunityId)`.  Missing
components stay `none`; both pandas `drop_duplicates` and pandas `merge`
match missing keys against each other, so plain equality of this pair is
the key equality used throughout. -/
def keyOf (r : Row) : Cell × Cell := (r.getCell "tenantId", r.getCell "opportunityId")

/-- pandas `drop_duplicates(subset=["tenantId", "opportunityId"], keep="first")`:
keep the first row for each key, in input order.  `seen` is the accumulator
of keys already kept. -/
def dropDuplicatesFirst : List Row → List (Cell × Cell) → List Row
  | [], _ => []
  | r :: rest, seen =>
    if keyOf r ∈ seen then dropDuplicatesFirst rest seen
    else r :: dropDuplicatesFirst rest (keyOf r :: seen)

/-- Test whether a character list begins with a given character list. -/
def listBeginsWith : List Char → List Char → Bool
  | _, [] => true
  | [], _ :: _ => false
  | a :: as, b :: bs => a == b && listBeginsWith as bs

/-- Test whether a string ends with a given string (modelling Python
`str.endswith`). -/
def strEndsWith (s suff : String) : Bool :=
  listBeginsWith s.data.reverse suff.data.reverse

/-- Columns contributed by the right (outcome) side of the merge, after the
merge with suffixes `("", "_out")` followed by the script's loop dropping
every column whose name ends in `"_out"`: the right-side non-key columns
that neither collide with a left column nor themselves end in `"_out"`. -/
def rightExtraCols (leftCols rightCols : List String) : List String :=
  rightCols.filter (fun c =>
    c != "tenantId" && c != "opportunityId" &&
      !leftCols.contains c && !strEndsWith c "_out")

/-- Column list of the merged table: the left columns (minus any whose name
ends in `"_out"`, which the script's post-merge loop drops) followed by the
surviving right-side columns. -/
def mergedCols (leftCols rightCols : List String) : List String :=
  leftCols.filter (fun c => !strEndsWith c "_out") ++ rightExtraCols leftCols rightCols

/-- One merged row: the left row's bindings (minus dropped `"_out"` columns,
so left values win every name collision) extended with the surviving right
columns, read from the matched right row when there is one. -/
def mergeRow (l : Row) (ro : Option Row) (extras : List String) : Row :=
  l.filter (fun p => !strEndsWith p.1 "_out") ++
    extras.map (fun c => (c, match ro with | some r => r.getCell c | none => none))

/-- Rows produced for one left (evaluation) row by the left join: one row per
matching deduplicated outcome row, or a single row with missing outcome
fields when nothing matches. -/
def joinOne (l : Row) (outd : List Row) (extras : List String) : List Row :=
  match outd.filter (fun r => keyOf r == keyOf l) with
  | [] => [mergeRow l none extras]
  | ms => ms.map (fun r => mergeRow l (some r) extras)

/-- The deduplicating left join: deduplicate the outcome table on the key
(first occurrence wins), left-join the evaluation table onto it, and resolve
column-name collisions in favour of the evaluation side. -/
def merge (ev outT : Table) : Table :=
  let outd := dropDuplicatesFirst outT.rows []
  let extras := rightExtraCols ev.cols outT.cols
  { cols := mergedCols ev.cols outT.cols
    rows := ev.rows.flatMap (fun l => joinOne l outd extras) }

/-- Key normalization of the outcome table: if it lacks `tenantId`, back-fill
a single constant column taken from the first evaluation row (empty string
if the evaluation table itself lacks the column or is empty). -/
def normalizeOut (rev outT : Table) : Table :=
  if outT.cols.contains "tenantId" then outT
  else
    let v : Cell :=
      if rev.cols.contains "tenantId" && !rev.rows.isEmpty then
        (rev.rows.headD []).getCell "tenantId"
      else some (Value.str "")
    outT.setCol "tenantId" v

/-- Read a cell as a number; strings and missing cells read as `none`. -/
def toNum : Cell → Option Rat
  | some (Value.num q) => some q
  | _ => none

/-- pandas `Series.clip(0, 1)` on one numeric cell. -/
def clip01 (q : Rat) : Rat := min 1 (max 0 q)

/-- Row-wise target derivation, as the script computes it when the `outcome`
column is present (or the table is empty): `target_win` from the categorical
outcome, `target_risk` from the clipped risk score with an outcome-derived
fallback, `is_closed` from outcome non-nullness. -/
def deriveRow (r : Row) : Row :=
  let outc := r.getCell "outcome"
  let tw : Cell :=
    if outc = some (Value.str "won") then some (Value.num 1)
    else if outc = some (Value.str "lost") then some (Value.num 0)
    else none
  let tr : Cell :=
    match toNum (r.getCell "riskScore") with
    | some q => some (Value.num (clip01 q))
    | none =>
      if outc = some (Value.str "lost") then some (Value.num 1)
      else if outc = some (Value.str "won") then some (Value.num 0)
      else none
  let ic : Cell := some (Value.num (if outc.isSome then 1 else 0))
  ((r.setCell "target_win" tw).setCell "target_risk" tr).setCell "is_closed" ic

/-- The failures the script can report (each ends the run with exit code 1). -/
inductive PipelineError where
  | emptyEvaluations
  | schemaError (table col : String)
  | valueLengthMismatch
  | keyError (col : String)
  | noTrainableRows (mode : String)
deriving DecidableEq, Repr

/-- Append a column name if it is not already present. -/
def addCol (cs : List String) (c : String) : List String :=
  if cs.contains c then cs else cs ++ [c]

/-- Column list after the three target-column assignments. -/
def addTargetCols (cs : List String) : List String :=
  addCol (addCol (addCol cs "target_win") "target_risk") "is_closed"

/-- The target-derivation block of the script.  When the merged table lacks
an `outcome` column but has rows, `np.where` over the empty default Series
produces a length-0 array whose assignment to `target_win` raises an
uncaught `ValueError` (length mismatch); otherwise each row is derived by
`deriveRow`. -/
def deriveTargets (m : Table) : Except PipelineError Table :=
  if !m.cols.contains "outcome" && !m.rows.isEmpty then
    Except.error PipelineError.valueLengthMismatch
  else
    Except.ok { cols := addTargetCols m.cols, rows := m.rows.map deriveRow }

/-- The optional tenant filter: applied only when the supplied tenant id is
truthy (non-empty) and the table has a `tenantId` column; exact string
equality only. -/
def tenantFilter (tid : Option String) (t : Table) : Table :=
  match tid with
  | none => t
  | some s =>
    if s != "" && t.cols.contains "tenantId" then
      { cols := t.cols
        rows := t.rows.filter (fun r => r.getCell "tenantId" == some (Value.str s)) }
    else t

/-- The placeholder feature values injected when enrichment has not run. -/
def _PLACEHOLDER : List (String × Rat) :=
  [("probability", 1/2), ("days_to_close", 0), ("stage_encoded", 0),
   ("industry_encoded", 0), ("days_since_last_activity", 999),
   ("activity_count_30d", 0), ("stakeholder_count", 0)]

/-- Placeholder injection on one row: set every placeholder column to its
constant value, overwriting anything already there. -/
def placeholdersRow (r : Row) : Row :=
  _PLACEHOLDER.foldl (fun acc kv => acc.setCell kv.1 (some (Value.num kv.2))) r

/-- Placeholder injection on a table (`merged[k] = v` for each entry). -/
def setPlaceholders (t : Table) : Table :=
  _PLACEHOLDER.foldl (fun acc kv => acc.setCol kv.1 (some (Value.num kv.2))) t

/-- The script's `merged[c] = merged[c].fillna(q) if c in merged.columns
else q` idiom. -/
def fillColOrConst (t : Table) (c : String) (q : Rat) : Table :=
  if t.cols.contains c then
    t.setColWith c (fun r =>
      match r.getCell c with
      | none => some (Value.num q)
      | some v => some v)
  else t.setCol c (some (Value.num q))

/-- The script's `merged["risk_score_latest"] = merged["riskScore"].fillna(0.5)
if "riskScore" in merged.columns else 0.5`. -/
def setRiskScoreLatest (t : Table) : Table :=
  if t.cols.contains "riskScore" then
    t.setColWith "risk_score_latest" (fun r =>
      match r.getCell "riskScore" with
      | none => some (Value.num (1/2))
      | some v => some v)
  else t.setCol "risk_score_latest" (some (Value.num (1/2)))

/-- The fixed keep-list of `outcome_joined` mode. -/
def keepBase : List String :=
  ["tenantId", "opportunityId", "riskScore", "categoryScores", "timestamp",
   "outcome", "amount", "closeDate", "recordedAt", "target_risk", "target_win",
   "is_closed"]

/-- The keep-list with `evaluationId` inserted right after `timestamp`, used
when the merged table has that column. -/
def keepWithEvaluationId : List String :=
  ["tenantId", "opportunityId", "riskScore", "categoryScores", "timestamp",
   "evaluationId", "outcome", "amount", "closeDate", "recordedAt",
   "target_risk", "target_win", "is_closed"]

/-- One step of the `outcome_joined` null-column creation loop: create the
column as all-missing when it is absent and is not `evaluationId`. -/
def ojStep (acc : Table) (c : String) : Table :=
  if !acc.cols.contains c && c != "evaluationId" then acc.setCol c none else acc

/-- The `outcome_joined` projection: fixed keep-list (with `evaluationId`
inserted when present), null columns created for absent entries other than
`evaluationId`, then selection of the keep-list columns that exist. -/
def projectOutcomeJoined (m : Table) : Table :=
  let keep := if m.cols.contains "evaluationId" then keepWithEvaluationId else keepBase
  let m2 := keep.foldl ojStep m
  m2.selectCols (keep.filter (fun c => m2.cols.contains c))

/-- Feature columns required by `train_risk_scoring.py`. -/
def reqRisk : List String :=
  ["amount", "probability", "days_to_close", "stage_encoded", "industry_encoded",
   "days_since_last_activity", "activity_count_30d", "stakeholder_count",
   "target_risk"]

/-- Feature columns required by `train_win_probability.py`. -/
def reqWin : List String :=
  ["amount", "probability", "days_to_close", "stage_encoded", "industry_encoded",
   "days_since_last_activity", "activity_count_30d", "stakeholder_count",
   "target_win", "is_closed"]

/-- The `risk_scoring` projection: drop rows with missing `target_risk`
(erroring with `NoTrainableRows` when that empties the table), inject the
placeholder features, default `amount` and `risk_score_latest`, and select
the final schema.  A missing required column surfaces as a pandas
`KeyError`. -/
def projectRiskScoring (m : Table) : Except PipelineError Table :=
  if !m.cols.contains "target_risk" then
    Except.error (PipelineError.keyError "target_risk")
  else
    let mf : Table :=
      { cols := m.cols, rows := m.rows.filter (fun r => (r.getCell "target_risk").isSome) }
    if mf.rows.isEmpty then Except.error (PipelineError.noTrainableRows "risk_scoring")
    else
      let m3 := setRiskScoreLatest (fillColOrConst (setPlaceholders mf) "amount" 0)
      let fin := ["tenantId", "opportunityId"] ++ reqRisk ++ ["risk_score_latest"]
      match fin.find? (fun c => !m3.cols.contains c) with
      | some c => Except.error (PipelineError.keyError c)
      | none => Except.ok (m3.selectCols fin)

/-- The `win_probability` projection: keep rows with `is_closed == 1` and a
defined `target_win` (erroring with `NoTrainableRows` when none survives),
inject the placeholder features, default `amount`, and select the final
schema. -/
def projectWinProbability (m : Table) : Except PipelineError Table :=
  if !m.cols.contains "is_closed" then
    Except.error (PipelineError.keyError "is_closed")
  else
    let m1 : Table :=
      { cols := m.cols
        rows := m.rows.filter (fun r => r.getCell "is_closed" == some (Value.num 1)) }
    if !m1.cols.contains "target_win" then
      Except.error (PipelineError.keyError "target_win")
    else
      let mf : Table :=
        { cols := m1.cols, rows := m1.rows.filter (fun r => (r.getCell "target_win").isSome) }
      if mf.rows.isEmpty then Except.error (PipelineError.noTrainableRows "win_probability")
      else
        let m3 := fillColOrConst (setPlaceholders mf) "amount" 0
        let fin := ["tenantId", "opportunityId"] ++ reqWin
        match fin.find? (fun c => !m3.cols.contains c) with
        | some c => Except.error (PipelineError.keyError c)
        | none => Except.ok (m3.selectCols fin)

/-- The operating mode (`--model-id`). -/
inductive Mode where
  | outcome_joined
  | risk_scoring
  | win_probability
deriving DecidableEq, Repr

/-- The mode projector. -/
def projectMode (mode : Mode) (m : Table) : Except PipelineError Table :=
  match mode with
  | Mode.outcome_joined => Except.ok (projectOutcomeJoined m)
  | Mode.risk_scoring => projectRiskScoring m
  | Mode.win_probability => projectWinProbability m

/-- The whole pipeline after loading, up to (and excluding) the file write:
validation, key normalization, deduplicating join, target derivation, tenant
filter, mode projection.  An `Except.ok` result is the table handed to the
writer; any `Except.error` ends the process with exit code 1. -/
def runPipeline (mode : Mode) (tenantId : Option String) (rev outT : Table) :
    Except PipelineError Table :=
  if rev.rows.isEmpty || rev.cols.isEmpty then
    Except.error PipelineError.emptyEvaluations
  else if !rev.cols.contains "tenantId" then
    Except.error (PipelineError.schemaError "risk_evaluations" "tenantId")
  else if !rev.cols.contains "opportunityId" then
    Except.error (PipelineError.schemaError "risk_evaluations" "opportunityId")
  else if !outT.cols.contains "opportunityId" then
    Except.error (PipelineError.schemaError "ml_outcomes" "opportunityId")
  else
    match deriveTargets (merge rev (normalizeOut rev outT)) with
    | Except.error e => Except.error e
    | Except.ok m => projectMode mode (tenantFilter tenantId m)

/-- Process exit code for a pipeline result. -/
def exitCode (r : Except PipelineError Table) : Nat :=
  match r with
  | Except.ok _ => 0
  | Except.error _ => 1

/-- Python `str.rstrip("/")` on a character list. -/
def rstripSlashList (l : List Char) : List Char :=
  (l.reverse.dropWhile (fun ch => ch = '/')).reverse

/-- Python `str.rstrip("/")`. -/
def rstripSlash (s : String) : String := ⟨rstripSlashList s.data⟩

/-- Python `os.path.basename`: everything after the last slash. -/
def basename (s : String) : String :=
  ⟨(s.data.reverse.takeWhile (fun ch => ch ≠ '/')).reverse⟩

/-- Python `os.path.dirname`: everything up to the last slash, with trailing
slashes stripped unless the result is all slashes. -/
def dirname (s : String) : String :=
  let head := (s.data.reverse.dropWhile (fun ch => ch ≠ '/')).reverse
  if head.all (fun ch => ch = '/') then ⟨head⟩ else ⟨rstripSlashList head⟩

/-- Python `os.path.join` for two components. -/
def joinPath (a b : String) : String :=
  if listBeginsWith b.data ['/'] then b
  else if a = "" || strEndsWith a "/" then a ++ b
  else a ++ "/" ++ b

/-- The Partitioned Writer's path resolution: when a truthy partition label
is supplied and the destination's parent is an existing directory
(`parentIsDir` models the `os.path.isdir` probe), insert a `date=<label>`
segment; a path already ending in `.parquet` keeps its filename, any other
path gains a default `data.parquet` filename. -/
def resolveOutPath (outputPath : String) (partitionDate : Option String)
    (parentIsDir : Bool) : String :=
  match partitionDate with
  | none => outputPath
  | some label =>
    if label != "" && parentIsDir then
      let base := rstripSlash outputPath
      if strEndsWith base ".parquet" then
        joinPath (joinPath (dirname base) ("date=" ++ label)) (basename base)
      else
        joinPath (joinPath base ("date=" ++ label)) "data.parquet"
    else outputPath

/-! ### Basic lemmas about rows and tables -/

/-- Reading a column after writing one: the written value when the names
match, the old value otherwise. -/
@[simp]
theorem Row.getCell_setCell (r : Row) (c c' : String) (v : Cell) :
    (r.setCell c' v).getCell c = if c' = c then v else r.getCell c := by
  induction r with
  | nil => simp only [Row.setCell, Row.getCell]
  | cons p rest ih =>
    obtain ⟨c₀, v₀⟩ := p
    simp only [Row.setCell]
    by_cases h0 : c₀ = c'
    · subst h0
      by_cases h1 : c₀ = c <;> simp [Row.getCell, h1]
    · rw [if_neg h0]
      simp only [Row.getCell]
      by_cases h1 : c₀ = c
      · subst h1
        have h2 : ¬ c' = c₀ := fun hh => h0 hh.symm
        simp [h2]
      · simp [h1, ih]

/-- Reading a column of a projected row (the shape `Table.selectCols`
produces). -/
theorem Row.getCell_mapRow (cs : List String) (f : String → Cell) (c : String) :
    Row.getCell (cs.map (fun c' => (c', f c'))) c = if c ∈ cs then f c else none := by
  induction cs with
  | nil => simp [Row.getCell]
  | cons c0 rest ih =>
    simp only [List.map, Row.getCell]
    by_cases h : c0 = c
    · subst h; simp
    · rw [if_neg h, ih]
      by_cases hm : c ∈ rest
      · simp [hm]
      · simp [hm, Ne.symm h]

/-- Variant of `List.find?_cons_of_pos` with explicit arguments. -/
theorem find?_cons_true {α : Type} (p : α → Bool) (a : α) (l : List α) (h : p a = true) :
    (a :: l).find? p = some a := List.find?_cons_of_pos l h

/-- Variant of `List.find?_cons_of_neg` with explicit arguments. -/
theorem find?_cons_false {α : Type} (p : α → Bool) (a : α) (l : List α) (h : p a = false) :
    (a :: l).find? p = l.find? p := List.find?_cons_of_neg l (by simp [h])

/-- Variant of `List.filter_cons_of_pos` with explicit arguments. -/
theorem filter_cons_true {α : Type} (p : α → Bool) (a : α) (l : List α) (h : p a = true) :
    (a :: l).filter p = a :: l.filter p := by simp [List.filter_cons, h]

/-- Variant of `List.filter_cons_of_neg` with explicit arguments. -/
theorem filter_cons_false {α : Type} (p : α → Bool) (a : α) (l : List α) (h : p a = false) :
    (a :: l).filter p = l.filter p := by simp [List.filter_cons, h]

/-! ### Lemmas about the deduplicating join -/

/-- Rows surviving deduplication never carry an already-seen key. -/
theorem dropDuplicatesFirst_key_not_seen :
    ∀ (rs : List Row) (seen : List (Cell × Cell)) (r : Row),
      r ∈ dropDuplicatesFirst rs seen → keyOf r ∉ seen := by
  intro rs
  induction rs with
  | nil => intro seen r h; simp [dropDuplicatesFirst] at h
  | cons a rest ih =>
    intro seen r h
    simp only [dropDuplicatesFirst] at h
    by_cases hm : keyOf a ∈ seen
    · rw [if_pos hm] at h; exact ih seen r h
    · rw [if_neg hm] at h
      rcases List.mem_cons.mp h with h1 | h1
      · subst h1; exact hm
      · intro hs
        exact (ih _ r h1) (List.mem_cons_of_mem _ hs)

/-- After deduplication, keys are pairwise distinct: at most one row per
`(tenantId, opportunityId)` key survives. -/
theorem dropDuplicatesFirst_keys_nodup :
    ∀ (rs : List Row) (seen : List (Cell × Cell)),
      ((dropDuplicatesFirst rs seen).map keyOf).Nodup := by
  intro rs
  induction rs with
  | nil => intro seen; simp [dropDuplicatesFirst]
  | cons a rest ih =>
    intro seen
    simp only [dropDuplicatesFirst]
    by_cases hm : keyOf a ∈ seen
    · rw [if_pos hm]; exact ih seen
    · rw [if_neg hm]
      simp only [List.map_cons, List.nodup_cons]
      refine ⟨?_, ih _⟩
      intro hmem
      rcases List.mem_map.mp hmem with ⟨r, hr, hk⟩
      exact dropDuplicatesFirst_key_not_seen rest _ r hr
        (by rw [hk]; exact List.mem_cons_self _ _)

/-- Deduplication keeps a subsequence of the input (rows are kept as-is, in
input order). -/
theorem dropDuplicatesFirst_sublist :
    ∀ (rs : List Row) (seen : List (Cell × Cell)),
      (dropDuplicatesFirst rs seen).Sublist rs := by
  intro rs
  induction rs with
  | nil => intro seen; simp [dropDuplicatesFirst]
  | cons a rest ih =>
    intro seen
    simp only [dropDuplicatesFirst]
    by_cases hm : keyOf a ∈ seen
    · rw [if_pos hm]; exact (ih seen).cons a
    · rw [if_neg hm]; exact (ih _).cons₂ a

/-- For every key not already seen, the first row found for that key after
deduplication is the first row for that key in the input: first occurrence
wins. -/
theorem dropDuplicatesFirst_find? :
    ∀ (rs : List Row) (seen : List (Cell × Cell)) (k : Cell × Cell), k ∉ seen →
      (dropDuplicatesFirst rs seen).find? (fun r => keyOf r == k) =
        rs.find? (fun r => keyOf r == k) := by
  intro rs
  induction rs with
  | nil => intro seen k hk; simp [dropDuplicatesFirst]
  | cons a rest ih =>
    intro seen k hk
    simp only [dropDuplicatesFirst]
    by_cases hm : keyOf a ∈ seen
    · rw [if_pos hm]
      have hne : (keyOf a == k) = false :=
        beq_false_of_ne (fun h => hk (h ▸ hm))
      rw [find?_cons_false (fun r => keyOf r == k) a rest hne]
      exact ih seen k hk
    · rw [if_neg hm]
      by_cases he : (keyOf a == k) = true
      · rw [find?_cons_true (fun r => keyOf r == k) a _ he,
          find?_cons_true (fun r => keyOf r == k) a rest he]
      · have he' : (keyOf a == k) = false := by simpa using he
        rw [find?_cons_false (fun r => keyOf r == k) a _ he',
          find?_cons_false (fun r => keyOf r == k) a rest he']
        refine ih _ k ?_
        intro hmem
        rcases List.mem_cons.mp hmem with h1 | h1
        · exact he (by simp [h1])
        · exact hk h1

/-- In a list whose keys are pairwise distinct, at most one row matches any
given key. -/
theorem filter_key_length_le_one :
    ∀ (rs : List Row) (k : Cell × Cell), ((rs.map keyOf).Nodup) →
      (rs.filter (fun r => keyOf r == k)).length ≤ 1 := by
  intro rs
  induction rs with
  | nil => intro k _; simp
  | cons a rest ih =>
    intro k h
    simp only [List.map_cons, List.nodup_cons] at h
    by_cases he : ((keyOf a == k) = true)
    · rw [filter_cons_true (fun r => keyOf r == k) a rest he]
      have hrest : rest.filter (fun r => keyOf r == k) = [] := by
        refine List.filter_eq_nil_iff.mpr ?_
        intro r hr hpr
        exact h.1 (List.mem_map.mpr ⟨r, hr, (eq_of_beq hpr).trans (eq_of_beq he).symm⟩)
      simp [hrest]
    · have he' : (keyOf a == k) = false := by simpa using he
      rw [filter_cons_false (fun r => keyOf r == k) a rest he']
      exact ih k h.2

/-- Each evaluation row contributes exactly one merged row once the outcome
side has been deduplicated. -/
theorem joinOne_length (l : Row) (outd : List Row) (extras : List String)
    (h : ((outd.map keyOf).Nodup)) : (joinOne l outd extras).length = 1 := by
  have hle := filter_key_length_le_one outd (keyOf l) h
  rcases hfil : outd.filter (fun r => keyOf r == keyOf l) with _ | ⟨a, tail⟩
  · simp [joinOne, hfil]
  · rw [hfil] at hle
    rcases tail with _ | ⟨b, t2⟩
    · simp [joinOne, hfil]
    · simp only [List.length_cons] at hle
      omega

/-- Left-join cardinality: the merged table has exactly one row per
evaluation row. -/
theorem merge_rows_length (ev o : Table) : (merge ev o).rows.length = ev.rows.length := by
  have h := dropDuplicatesFirst_keys_nodup o.rows []
  simp only [merge]
  generalize ev.rows = rs
  induction rs with
  | nil => simp
  | cons a rest ih =>
    simp only [List.flatMap_cons, List.length_append, List.length_cons, ih,
      joinOne_length a _ _ h]
    omega

/-! ### Length and row-shape lemmas for the projection operations -/

@[simp]
theorem Table.setCol_rows_length (t : Table) (c : String) (v : Cell) :
    (t.setCol c v).rows.length = t.rows.length := by
  simp [Table.setCol]

@[simp]
theorem Table.setColWith_rows_length (t : Table) (c : String) (f : Row → Cell) :
    (t.setColWith c f).rows.length = t.rows.length := by
  simp [Table.setColWith]

@[simp]
theorem Table.selectCols_rows_length (t : Table) (cs : List String) :
    (t.selectCols cs).rows.length = t.rows.length := by
  simp [Table.selectCols]

/-- Folding column assignments over a table acts row-wise. -/
theorem foldl_setCol_rows (kvs : List (String × Rat)) (t : Table) :
    (kvs.foldl (fun acc kv => acc.setCol kv.1 (some (Value.num kv.2))) t).rows =
      t.rows.map
        (fun r => kvs.foldl (fun acc kv => acc.setCell kv.1 (some (Value.num kv.2))) r) := by
  induction kvs generalizing t with
  | nil => simp
  | cons kv rest ih =>
    simp only [List.foldl_cons]
    rw [ih (t.setCol kv.1 (some (Value.num kv.2)))]
    simp only [Table.setCol, List.map_map]
    rfl

/-- Placeholder injection acts row-wise. -/
theorem setPlaceholders_rows (t : Table) :
    (setPlaceholders t).rows = t.rows.map placeholdersRow :=
  foldl_setCol_rows _PLACEHOLDER t

@[simp]
theorem setPlaceholders_rows_length (t : Table) :
    (setPlaceholders t).rows.length = t.rows.length := by
  simp [setPlaceholders_rows]

@[simp]
theorem fillColOrConst_rows_length (t : Table) (c : String) (q : Rat) :
    (fillColOrConst t c q).rows.length = t.rows.length := by
  unfold fillColOrConst
  split <;> simp

@[simp]
theorem setRiskScoreLatest_rows_length (t : Table) :
    (setRiskScoreLatest t).rows.length = t.rows.length := by
  unfold setRiskScoreLatest
  split <;> simp

/-- A placeholder column of an injected row holds its constant value. -/
theorem placeholdersRow_getCell_mem (r : Row) (kv : String × Rat) (h : kv ∈ _PLACEHOLDER) :
    (placeholdersRow r).getCell kv.1 = some (Value.num kv.2) := by
  fin_cases h <;> simp [placeholdersRow, _PLACEHOLDER]

/-! ### Concrete fixture tables for the testable scenarios -/

/-- Scenario A evaluation table: two rows for opportunity 1 of tenant `t1`
and one row for opportunity 2. -/
def revA : Table :=
  { cols := ["tenantId", "opportunityId", "riskScore"]
    rows := [
      [("tenantId", some (Value.str "t1")), ("opportunityId", some (Value.num 1)),
       ("riskScore", none)],
      [("tenantId", some (Value.str "t1")), ("opportunityId", some (Value.num 1)),
       ("riskScore", none)],
      [("tenantId", some (Value.str "t1")), ("opportunityId", some (Value.num 2)),
       ("riskScore", none)]] }

/-- Scenario A outcome table: a `won` row for opportunity 1 followed by a
duplicate `lost` row for the same opportunity; no `tenantId` column. -/
def outA : Table :=
  { cols := ["opportunityId", "outcome"]
    rows := [
      [("opportunityId", some (Value.num 1)), ("outcome", some (Value.str "won"))],
      [("opportunityId", some (Value.num 1)), ("outcome", some (Value.str "lost"))]] }

/-! ### Claim theorems -/

/-- C1: for every non-empty evaluation table carrying `tenantId` and
`opportunityId` and every outcome table carrying `opportunityId`, the table
produced by the deduplicating joiner has exactly one row per evaluation row,
regardless of how many outcome rows match. -/
theorem C1_join_cardinality (rev outT : Table)
    (h1 : rev.rows ≠ [])
    (h2 : rev.cols.contains "tenantId" = true)
    (h3 : rev.cols.contains "opportunityId" = true)
    (h4 : outT.cols.contains "opportunityId" = true) :
    (merge rev (normalizeOut rev outT)).rows.length = rev.rows.length :=
  merge_rows_length rev (normalizeOut rev outT)

/-- Witness for C1 at the Scenario A tables (3 evaluation rows, one
opportunity matched by two outcome rows, one matched by none). -/
theorem C1_join_cardinality_witness :
    (merge revA (normalizeOut revA outA)).rows.length = revA.rows.length :=
  C1_join_cardinality revA outA (by decide) (by decide) (by decide) (by decide)

/-- C2: on a merged table that has an `outcome` column, target derivation
succeeds and computes, row-wise: `target_win` 1 for `won`, 0 for `lost`,
missing otherwise; `target_risk` the risk score clamped to `[0, 1]` whenever
a numeric risk score is present (regardless of outcome), otherwise 1.0 for
`lost`, 0.0 for `won`, missing otherwise; `is_closed` 1 exactly when the
outcome is non-null, else 0. -/
theorem C2_target_derivation (m : Table) (h : m.cols.contains "outcome" = true) :
    deriveTargets m = Except.ok { cols := addTargetCols m.cols, rows := m.rows.map deriveRow } ∧
    ∀ r : Row,
      ((deriveRow r).getCell "target_win" =
        (if r.getCell "outcome" = some (Value.str "won") then some (Value.num 1)
         else if r.getCell "outcome" = some (Value.str "lost") then some (Value.num 0)
         else none)) ∧
      (∀ q : Rat, toNum (r.getCell "riskScore") = some q →
        (deriveRow r).getCell "target_risk" = some (Value.num (min 1 (max 0 q)))) ∧
      (toNum (r.getCell "riskScore") = none →
        (deriveRow r).getCell "target_risk" =
          (if r.getCell "outcome" = some (Value.str "lost") then some (Value.num 1)
           else if r.getCell "outcome" = some (Value.str "won") then some (Value.num 0)
           else none)) ∧
      ((deriveRow r).getCell "is_closed" =
        some (Value.num (if (r.getCell "outcome").isSome then 1 else 0))) := by
  have h' : "outcome" ∈ m.cols := by simpa using h
  refine ⟨by simp [deriveTargets, h'], ?_⟩
  intro r
  refine ⟨?_, ?_, ?_, ?_⟩
  · simp [deriveRow]
  · intro q hq
    simp [deriveRow, hq, clip01]
  · intro hq
    simp [deriveRow, hq]
  · simp [deriveRow]

/-- Witness for C2 at a small merged table with an `outcome` column,
checking one derived row concretely. -/
theorem C2_target_derivation_witness :
    (deriveRow [("outcome", some (Value.str "won")), ("riskScore", some (Value.num 3))]).getCell
        "target_risk" = some (Value.num (min 1 (max 0 3))) :=
  ((C2_target_derivation
      { cols := ["outcome", "riskScore"], rows := [] } (by decide)).2
    [("outcome", some (Value.str "won")), ("riskScore", some (Value.num 3))]).2.1 3 rfl

/-- C3: the joiner deduplicates the outcome table to at most one row per
`(tenantId, opportunityId)` key (keys pairwise distinct afterwards), keeps a
subsequence of the input, and for every key retains exactly the first row of
the input carrying that key; on Scenario A both evaluation rows for
opportunity 1 end up with outcome `won` (the first-seen duplicate),
`is_closed` 1 and `target_win` 1. -/
theorem C3_dedup_first_then_join :
    (∀ rs : List Row, ((dropDuplicatesFirst rs []).map keyOf).Nodup) ∧
    (∀ rs : List Row, (dropDuplicatesFirst rs []).Sublist rs) ∧
    (∀ (rs : List Row) (k : Cell × Cell),
      (dropDuplicatesFirst rs []).find? (fun r => keyOf r == k) =
        rs.find? (fun r => keyOf r == k)) ∧
    ((runPipeline Mode.outcome_joined none revA outA).toOption.map (fun t =>
        t.rows.map (fun r =>
          (r.getCell "outcome", r.getCell "is_closed", r.getCell "target_win"))) =
      some [(some (Value.str "won"), some (Value.num 1), some (Value.num 1)),
            (some (Value.str "won"), some (Value.num 1), some (Value.num 1)),
            (none, some (Value.num 0), none)]) :=
  ⟨fun rs => dropDuplicatesFirst_keys_nodup rs [],
   fun rs => dropDuplicatesFirst_sublist rs [],
   fun rs k => dropDuplicatesFirst_find? rs [] k (by simp),
   by decide⟩

/-- The amount-defaulting step writes only the `amount` column, row-wise. -/
theorem fillColOrConst_exists_map (t : Table) (c : String) (q : Rat) :
    ∃ f : Row → Cell, (fillColOrConst t c q).rows = t.rows.map (fun r => r.setCell c (f r)) := by
  unfold fillColOrConst
  split
  · exact ⟨fun r =>
      (match r.getCell c with
       | none => some (Value.num q)
       | some v => some v), rfl⟩
  · exact ⟨fun _ => some (Value.num q), rfl⟩

/-- The `risk_score_latest` step writes only that column, row-wise. -/
theorem setRiskScoreLatest_exists_map (t : Table) :
    ∃ f : Row → Cell,
      (setRiskScoreLatest t).rows =
        t.rows.map (fun r => r.setCell "risk_score_latest" (f r)) := by
  unfold setRiskScoreLatest
  split
  · exact ⟨fun r =>
      (match r.getCell "riskScore" with
       | none => some (Value.num (1/2))
       | some v => some v), rfl⟩
  · exact ⟨fun _ => some (Value.num (1/2)), rfl⟩

/-- Placeholder injection leaves `tenantId` untouched. -/
theorem placeholdersRow_getCell_tenantId (r : Row) :
    (placeholdersRow r).getCell "tenantId" = r.getCell "tenantId" := by
  simp [placeholdersRow, _PLACEHOLDER]

/-- Placeholder injection leaves `opportunityId` untouched. -/
theorem placeholdersRow_getCell_opportunityId (r : Row) :
    (placeholdersRow r).getCell "opportunityId" = r.getCell "opportunityId" := by
  simp [placeholdersRow, _PLACEHOLDER]

/-- Placeholder injection leaves `target_win` untouched. -/
theorem placeholdersRow_getCell_target_win (r : Row) :
    (placeholdersRow r).getCell "target_win" = r.getCell "target_win" := by
  simp [placeholdersRow, _PLACEHOLDER]

/-! ### Fixtures for Scenarios B and C and the failing inputs -/

/-- C4 failing input, evaluation side: one valid evaluation row. -/
def revC4 : Table :=
  { cols := ["tenantId", "opportunityId"]
    rows := [[("tenantId", some (Value.str "t1")), ("opportunityId", some (Value.num 1))]] }

/-- C4 failing input, outcome side: carries `opportunityId` (so it passes
schema validation) but no `outcome` column at all. -/
def outC4 : Table :=
  { cols := ["opportunityId"]
    rows := [[("opportunityId", some (Value.num 1))]] }

/-- Scenario B evaluation table: two rows, both with a missing risk score. -/
def revB : Table :=
  { cols := ["tenantId", "opportunityId", "riskScore"]
    rows := [
      [("tenantId", some (Value.str "t1")), ("opportunityId", some (Value.num 1)),
       ("riskScore", none)],
      [("tenantId", some (Value.str "t1")), ("opportunityId", some (Value.num 2)),
       ("riskScore", none)]] }

/-- Scenario B outcome table: a row whose `outcome` is null. -/
def outB : Table :=
  { cols := ["opportunityId", "outcome"]
    rows := [[("opportunityId", some (Value.num 1)), ("outcome", none)]] }

/-- Scenario C evaluation table: seven opportunities of one tenant. -/
def revC : Table :=
  { cols := ["tenantId", "opportunityId"]
    rows := [
      [("tenantId", some (Value.str "t1")), ("opportunityId", some (Value.num 1))],
      [("tenantId", some (Value.str "t1")), ("opportunityId", some (Value.num 2))],
      [("tenantId", some (Value.str "t1")), ("opportunityId", some (Value.num 3))],
      [("tenantId", some (Value.str "t1")), ("opportunityId", some (Value.num 4))],
      [("tenantId", some (Value.str "t1")), ("opportunityId", some (Value.num 5))],
      [("tenantId", some (Value.str "t1")), ("opportunityId", some (Value.num 6))],
      [("tenantId", some (Value.str "t1")), ("opportunityId", some (Value.num 7))]] }

/-- Scenario C outcome table: closed outcomes for the first five
opportunities only. -/
def outC : Table :=
  { cols := ["opportunityId", "outcome"]
    rows := [
      [("opportunityId", some (Value.num 1)), ("outcome", some (Value.str "won"))],
      [("opportunityId", some (Value.num 2)), ("outcome", some (Value.str "lost"))],
      [("opportunityId", some (Value.num 3)), ("outcome", some (Value.str "won"))],
      [("opportunityId", some (Value.num 4)), ("outcome", some (Value.str "won"))],
      [("opportunityId", some (Value.num 5)), ("outcome", some (Value.str "lost"))]] }

/-- C4 (code bug): with the `outcome` column absent from the outcome input,
the merged table lacks `outcome` entirely and the target-derivation block
raises an uncaught `ValueError` (length-0 array assigned to a non-empty
frame), instead of treating all rows as not-closed as the spec describes. -/
theorem C4_absent_outcome_column_fails :
    runPipeline Mode.outcome_joined none revC4 outC4 =
      Except.error PipelineError.valueLengthMismatch ∧
    deriveTargets (merge revC4 (normalizeOut revC4 outC4)) =
      Except.error PipelineError.valueLengthMismatch :=
  ⟨rfl, rfl⟩

/-- A successful `risk_scoring` projection is the placeholder-filled,
column-selected version of the table restricted to rows with a defined
`target_risk`. -/
theorem projectRiskScoring_ok_shape (m t : Table)
    (ht : projectRiskScoring m = Except.ok t) :
    t = (setRiskScoreLatest (fillColOrConst (setPlaceholders
          { cols := m.cols
            rows := m.rows.filter (fun r => (r.getCell "target_risk").isSome) })
          "amount" 0)).selectCols
        (["tenantId", "opportunityId"] ++ reqRisk ++ ["risk_score_latest"]) := by
  simp only [projectRiskScoring] at ht
  split at ht
  · exact absurd ht (by simp)
  · split at ht
    · exact absurd ht (by simp)
    · split at ht
      · exact absurd ht (by simp)
      · exact (Except.ok.inj ht).symm

/-- C5: in `risk_scoring` mode every row with a missing `target_risk` is
dropped, the projection fails with `NoTrainableRows` exactly when that
dropping empties the table, and Scenario B (all risk scores and outcomes
null) fails that way end-to-end. -/
theorem C5_risk_scoring_drop_and_fail (m : Table)
    (h : m.cols.contains "target_risk" = true) :
    (projectRiskScoring m = Except.error (PipelineError.noTrainableRows "risk_scoring") ↔
      m.rows.filter (fun r => (r.getCell "target_risk").isSome) = []) ∧
    (∀ t : Table, projectRiskScoring m = Except.ok t →
      t.rows.length = (m.rows.filter (fun r => (r.getCell "target_risk").isSome)).length) ∧
    runPipeline Mode.risk_scoring none revB outB =
      Except.error (PipelineError.noTrainableRows "risk_scoring") := by
  have hguard : ¬ ((!m.cols.contains "target_risk") = true) := by simpa using h
  refine ⟨?_, ?_, rfl⟩
  · constructor
    · intro he
      simp only [projectRiskScoring] at he
      split at he
      · exact absurd (by assumption) hguard
      · split at he
        · next hisEmpty => simpa using hisEmpty
        · split at he <;> simp_all
    · intro he
      simp only [projectRiskScoring]
      rw [if_neg hguard, if_pos (by simp [he])]
  · intro t ht
    rw [projectRiskScoring_ok_shape m t ht]
    simp

/-- Fixture for the C5 witness: a derived table whose only row has a
missing `target_risk`. -/
def mC5w : Table :=
  { cols := ["tenantId", "opportunityId", "target_risk"]
    rows := [[("tenantId", some (Value.str "t1")), ("opportunityId", some (Value.num 1)),
              ("target_risk", none)]] }

/-- Witness for C5: on a concrete table whose rows all lack `target_risk`,
the projection fails with `NoTrainableRows`. -/
theorem C5_risk_scoring_drop_and_fail_witness :
    projectRiskScoring mC5w = Except.error (PipelineError.noTrainableRows "risk_scoring") :=
  (C5_risk_scoring_drop_and_fail mC5w (by decide)).1.mpr (by decide)

/-- A successful `win_probability` projection is the placeholder-filled,
column-selected version of the table restricted to closed rows with a
defined `target_win`. -/
theorem projectWinProbability_ok_shape (m t : Table)
    (ht : projectWinProbability m = Except.ok t) :
    t = (fillColOrConst (setPlaceholders
          { cols := m.cols
            rows := (m.rows.filter
                (fun r => r.getCell "is_closed" == some (Value.num 1))).filter
              (fun r => (r.getCell "target_win").isSome) })
          "amount" 0).selectCols (["tenantId", "opportunityId"] ++ reqWin) := by
  simp only [projectWinProbability] at ht
  split at ht
  · exact absurd ht (by simp)
  · split at ht
    · exact absurd ht (by simp)
    · split at ht
      · exact absurd ht (by simp)
      · split at ht
        · exact absurd ht (by simp)
        · exact (Except.ok.inj ht).symm

/-- C6: in `win_probability` mode the output consists of exactly the rows
with `is_closed == 1` and a defined `target_win` (witnessed here on the
identifying `(tenantId, opportunityId, target_win)` projection of each
row), failing with `NoTrainableRows` exactly when no such row exists;
Scenario C (five closed rows with targets, two open rows) yields exactly
five output rows end-to-end. -/
theorem C6_win_probability_filter (m : Table)
    (h1 : m.cols.contains "is_closed" = true)
    (h2 : m.cols.contains "target_win" = true) :
    (projectWinProbability m = Except.error (PipelineError.noTrainableRows "win_probability") ↔
      m.rows.filter (fun r =>
        (r.getCell "target_win").isSome && r.getCell "is_closed" == some (Value.num 1)) = []) ∧
    (∀ t : Table, projectWinProbability m = Except.ok t →
      t.rows.map (fun r =>
          (r.getCell "tenantId", r.getCell "opportunityId", r.getCell "target_win")) =
        (m.rows.filter (fun r =>
            (r.getCell "target_win").isSome &&
              r.getCell "is_closed" == some (Value.num 1))).map
          (fun r =>
            (r.getCell "tenantId", r.getCell "opportunityId", r.getCell "target_win"))) ∧
    (runPipeline Mode.win_probability none revC outC).toOption.map (fun t => t.rows.length) =
      some 5 := by
  have hg1 : ¬ ((!m.cols.contains "is_closed") = true) := by simpa using h1
  refine ⟨?_, ?_, by rfl⟩
  · constructor
    · intro he
      simp only [projectWinProbability] at he
      split at he
      · exact absurd (by assumption) hg1
      · split at he
        · next hguard2 => exact absurd hguard2 (by simpa using h2)
        · split at he
          · next hisEmpty => simpa [List.filter_filter] using hisEmpty
          · split at he <;> simp_all
    · intro he
      simp only [projectWinProbability]
      rw [if_neg hg1, if_neg (by simpa using h2), if_pos (by simp [List.filter_filter, he])]
  · intro t ht
    rw [projectWinProbability_ok_shape m t ht]
    obtain ⟨f, hf⟩ := fillColOrConst_exists_map
      (setPlaceholders
        { cols := m.cols
          rows := (m.rows.filter
              (fun r => r.getCell "is_closed" == some (Value.num 1))).filter
            (fun r => (r.getCell "target_win").isSome) }) "amount" 0
    simp only [Table.selectCols, hf, setPlaceholders_rows, List.map_map]
    rw [List.filter_filter]
    apply List.map_congr_left
    intro r hr
    simp [Row.getCell_mapRow, reqWin, Row.getCell, placeholdersRow_getCell_tenantId,
      placeholdersRow_getCell_opportunityId, placeholdersRow_getCell_target_win]

/-- Fixture for the C6 witness: a derived table whose only row is not
closed. -/
def mC6w : Table :=
  { cols := ["tenantId", "opportunityId", "is_closed", "target_win"]
    rows := [[("tenantId", some (Value.str "t1")), ("opportunityId", some (Value.num 1)),
              ("is_closed", some (Value.num 0)), ("target_win", none)]] }

/-- Witness for C6: on a concrete table with no closed row, the projection
fails with `NoTrainableRows`. -/
theorem C6_win_probability_filter_witness :
    projectWinProbability mC6w = Except.error (PipelineError.noTrainableRows "win_probability") :=
  (C6_win_probability_filter mC6w (by decide) (by decide)).1.mpr (by decide)

/-- A successful `risk_scoring` projection always has at least one row (the
emptiness guard ran before the projection succeeded). -/
theorem projectRiskScoring_ok_rows_ne_nil (m t : Table)
    (ht : projectRiskScoring m = Except.ok t) : t.rows ≠ [] := by
  have hshape := projectRiskScoring_ok_shape m t ht
  simp only [projectRiskScoring] at ht
  split at ht
  · exact absurd ht (by simp)
  · split at ht
    · exact absurd ht (by simp)
    · next hisEmpty =>
      intro hnil
      apply hisEmpty
      have hlen : t.rows.length =
          (m.rows.filter (fun r => (r.getCell "target_risk").isSome)).length := by
        rw [hshape]; simp
      rw [hnil] at hlen
      exact List.isEmpty_iff_length_eq_zero.mpr (by simpa using hlen.symm)

/-- A successful `win_probability` projection always has at least one row. -/
theorem projectWinProbability_ok_rows_ne_nil (m t : Table)
    (ht : projectWinProbability m = Except.ok t) : t.rows ≠ [] := by
  have hshape := projectWinProbability_ok_shape m t ht
  simp only [projectWinProbability] at ht
  split at ht
  · exact absurd ht (by simp)
  · split at ht
    · exact absurd ht (by simp)
    · split at ht
      · exact absurd ht (by simp)
      · next hisEmpty =>
        intro hnil
        apply hisEmpty
        have hlen : t.rows.length =
            ((m.rows.filter (fun r => r.getCell "is_closed" == some (Value.num 1))).filter
              (fun r => (r.getCell "target_win").isSome)).length := by
          rw [hshape]; simp
        rw [hnil] at hlen
        exact List.isEmpty_iff_length_eq_zero.mpr (by simpa using hlen.symm)

/-- Fixture for the C7 counterexample, evaluation side: one row of tenant
`t1`. -/
def rev7 : Table :=
  { cols := ["tenantId", "opportunityId"]
    rows := [[("tenantId", some (Value.str "t1")), ("opportunityId", some (Value.num 1))]] }

/-- Fixture for the C7 counterexample, outcome side. -/
def out7 : Table :=
  { cols := ["opportunityId", "outcome"]
    rows := [[("opportunityId", some (Value.num 1)), ("outcome", some (Value.str "won"))]] }

/-- C7 counterexample: in `outcome_joined` mode with a tenant filter that
matches no rows, the pipeline exits with code 0 while writing zero rows, so
"exit code 0 only if at least one output row was written" is false. -/
theorem C7_counterexample_zero_rows_exit_zero :
    exitCode (runPipeline Mode.outcome_joined (some "t2") rev7 out7) = 0 ∧
    (runPipeline Mode.outcome_joined (some "t2") rev7 out7).toOption.map
      (fun t => t.rows.length) = some 0 :=
  ⟨by decide, by decide⟩

/-- C7 (amended): in `risk_scoring` and `win_probability` modes a successful
run (exit code 0) always has at least one output row; `outcome_joined` mode
gives no such guarantee (see the counterexample), and every failure exits
with code 1 by definition of `exitCode`. -/
theorem C7_amended_success_rows (mode : Mode) (tid : Option String) (rev outT t : Table)
    (hm : mode = Mode.risk_scoring ∨ mode = Mode.win_probability)
    (h : runPipeline mode tid rev outT = Except.ok t) :
    exitCode (runPipeline mode tid rev outT) = 0 ∧ t.rows ≠ [] := by
  refine ⟨by rw [h]; rfl, ?_⟩
  simp only [runPipeline] at h
  split at h
  · exact absurd h (by simp)
  · split at h
    · exact absurd h (by simp)
    · split at h
      · exact absurd h (by simp)
      · split at h
        · exact absurd h (by simp)
        · split at h
          · exact absurd h (by simp)
          · rcases hm with hm | hm <;> subst hm
            · exact projectRiskScoring_ok_rows_ne_nil _ t h
            · exact projectWinProbability_ok_rows_ne_nil _ t h

/-- The concrete output table of a successful `risk_scoring` run on the
Scenario A fixtures (used by the C7 witness). -/
def t7w : Table :=
  (runPipeline Mode.risk_scoring none revA outA).toOption.getD { cols := [], rows := [] }

/-- Witness for the amended C7: a concrete successful `risk_scoring` run
has a non-empty output. -/
theorem C7_amended_success_rows_witness :
    runPipeline Mode.risk_scoring none revA outA = Except.ok t7w ∧ t7w.rows ≠ [] := by
  have hok : runPipeline Mode.risk_scoring none revA outA = Except.ok t7w := by rfl
  exact ⟨hok, (C7_amended_success_rows Mode.risk_scoring none revA outA t7w (Or.inl rfl) hok).2⟩

/-! ### Lemmas about the outcome_joined null-column creation loop -/

/-- One creation step never removes a column. -/
theorem ojStep_mem_mono (acc : Table) (c c0 : String) (h : c0 ∈ acc.cols) :
    c0 ∈ (ojStep acc c).cols := by
  unfold ojStep
  split
  · simp only [Table.setCol]
    split
    · exact h
    · exact List.mem_append_left _ h
  · exact h

/-- The creation loop never removes a column. -/
theorem ojFold_mem_mono (keep : List String) (m : Table) (c0 : String) (h : c0 ∈ m.cols) :
    c0 ∈ (keep.foldl ojStep m).cols := by
  induction keep generalizing m with
  | nil => exact h
  | cons k rest ih => exact ih _ (ojStep_mem_mono m k c0 h)

/-- After the creation loop, every processed column other than
`evaluationId` exists. -/
theorem ojFold_mem_of_mem_keep (keep : List String) (m : Table) (c0 : String)
    (hc : c0 ∈ keep) (hne : c0 ≠ "evaluationId") :
    c0 ∈ (keep.foldl ojStep m).cols := by
  induction keep generalizing m with
  | nil => cases hc
  | cons k rest ih =>
    simp only [List.foldl_cons]
    rcases List.mem_cons.mp hc with h1 | h1
    · subst h1
      apply ojFold_mem_mono
      unfold ojStep
      split
      · simp only [Table.setCol]
        split
        · next hcont => simpa using hcont
        · exact List.mem_append_right _ (by simp)
      · next hcond =>
        have hcont : m.cols.contains c0 = true := by
          by_contra hcon
          have hmem : c0 ∉ m.cols := by simpa using hcon
          exact hcond (by simp [hmem, hne])
        simpa using hcont
    · exact ih _ h1

/-- One creation step never creates `evaluationId`. -/
theorem ojStep_eval_mem_iff (acc : Table) (c : String) :
    "evaluationId" ∈ (ojStep acc c).cols ↔ "evaluationId" ∈ acc.cols := by
  unfold ojStep
  split
  · next hcond =>
    have hcne : c ≠ "evaluationId" :=
      bne_iff_ne.mp ((Bool.and_eq_true _ _).mp hcond).2
    simp only [Table.setCol]
    split
    · exact Iff.rfl
    · constructor
      · intro hmem
        rcases List.mem_append.mp hmem with hmem | hmem
        · exact hmem
        · have h1 : "evaluationId" = c := by simpa using hmem
          exact absurd h1.symm hcne
      · exact List.mem_append_left _
  · exact Iff.rfl

/-- The creation loop never creates `evaluationId`. -/
theorem ojFold_eval_mem_iff (keep : List String) (m : Table) :
    "evaluationId" ∈ (keep.foldl ojStep m).cols ↔ "evaluationId" ∈ m.cols := by
  induction keep generalizing m with
  | nil => exact Iff.rfl
  | cons k rest ih =>
    simp only [List.foldl_cons]
    exact (ih _).trans (ojStep_eval_mem_iff m k)

/-- One creation step preserves a column being all-missing, as long as it
is not the column being processed. -/
theorem ojStep_preserves_allNone (acc : Table) (c c0 : String) (hne : c ≠ c0)
    (h : ∀ r ∈ acc.rows, r.getCell c0 = none) :
    ∀ r ∈ (ojStep acc c).rows, r.getCell c0 = none := by
  unfold ojStep
  split
  · simp only [Table.setCol]
    intro r hr
    rcases List.mem_map.mp hr with ⟨r0, hr0, rfl⟩
    simp [hne, h r0 hr0]
  · exact h

/-- The creation loop preserves a column being all-missing when the column
is not in the processed list. -/
theorem ojFold_preserves_allNone (keep : List String) (m : Table) (c0 : String)
    (hnot : c0 ∉ keep) (h : ∀ r ∈ m.rows, r.getCell c0 = none) :
    ∀ r ∈ (keep.foldl ojStep m).rows, r.getCell c0 = none := by
  induction keep generalizing m with
  | nil => exact h
  | cons k rest ih =>
    simp only [List.foldl_cons]
    refine ih _ (fun hh => hnot (List.mem_cons_of_mem _ hh)) ?_
    exact ojStep_preserves_allNone m k c0
      (fun hh => hnot (List.mem_cons.mpr (Or.inl hh.symm))) h

/-- A processed column (other than `evaluationId`) absent from the input
table comes out of the creation loop as an all-missing column. -/
theorem ojFold_creates_none (keep : List String) (m : Table) (c0 : String)
    (hc : c0 ∈ keep) (hnd : keep.Nodup) (hne : c0 ≠ "evaluationId")
    (habs : ¬ c0 ∈ m.cols) :
    ∀ r ∈ (keep.foldl ojStep m).rows, r.getCell c0 = none := by
  induction keep generalizing m with
  | nil => cases hc
  | cons k rest ih =>
    simp only [List.foldl_cons]
    rcases List.mem_cons.mp hc with h1 | h1
    · subst h1
      have hstep : ojStep m c0 = m.setCol c0 none := by
        unfold ojStep
        rw [if_pos (by simp [habs, hne])]
      rw [hstep]
      refine ojFold_preserves_allNone rest _ c0 (List.nodup_cons.mp hnd).1 ?_
      intro r hr
      simp only [Table.setCol] at hr
      rcases List.mem_map.mp hr with ⟨r0, hr0, rfl⟩
      simp
    · have hk_ne : k ≠ c0 := by
        intro hh
        exact (List.nodup_cons.mp hnd).1 (hh ▸ h1)
      have habs' : ¬ c0 ∈ (ojStep m k).cols := by
        unfold ojStep
        split
        · simp only [Table.setCol]
          split
          · exact habs
          · intro hmem
            rcases List.mem_append.mp hmem with hmem | hmem
            · exact habs hmem
            · have h2 : c0 = k := by simpa using hmem
              exact hk_ne h2.symm
        · exact habs
      exact ih _ h1 (List.nodup_cons.mp hnd).2 habs'

/-- When every processed column exists after the creation loop, the final
column selection keeps the whole keep-list. -/
theorem oj_select_cols_eq (keep : List String) (m : Table)
    (hall : ∀ c ∈ keep, c ∈ (keep.foldl ojStep m).cols) :
    keep.filter (fun c => (keep.foldl ojStep m).cols.contains c) = keep := by
  refine List.filter_eq_self.mpr ?_
  intro c hc
  simpa using hall c hc

/-- A created null column stays all-missing through the final column
selection. -/
theorem oj_select_rows_none (keep : List String) (m : Table) (c : String) (cs : List String)
    (hc : c ∈ keep) (hnd : keep.Nodup) (hne : c ≠ "evaluationId") (hcm : c ∉ m.cols) :
    ∀ r ∈ ((keep.foldl ojStep m).selectCols cs).rows, r.getCell c = none := by
  intro r hr
  simp only [Table.selectCols, List.mem_map] at hr
  rcases hr with ⟨r2, hr2, rfl⟩
  rw [Row.getCell_mapRow]
  split
  · exact ojFold_creates_none keep m c hc hnd hne hcm r2 hr2
  · rfl

/-- Fixture for the C8 counterexample: an evaluation table carrying the
optional `evaluationId` column. -/
def revC8a : Table :=
  { cols := ["tenantId", "opportunityId", "evaluationId"]
    rows := [[("tenantId", some (Value.str "t1")), ("opportunityId", some (Value.num 1)),
              ("evaluationId", some (Value.str "e1"))]] }

/-- Fixture for the C8 counterexample: the same evaluation table without
`evaluationId`. -/
def revC8b : Table :=
  { cols := ["tenantId", "opportunityId"]
    rows := [[("tenantId", some (Value.str "t1")), ("opportunityId", some (Value.num 1))]] }

/-- Fixture for the C8 counterexample: an outcome table with no rows. -/
def outC8 : Table :=
  { cols := ["opportunityId", "outcome"]
    rows := [] }

/-- C8 counterexample: the `outcome_joined` output schema is not one fixed
column set — it contains `evaluationId` exactly when the input did, because
the null-column creation loop explicitly skips `evaluationId`. -/
theorem C8_counterexample_schema_depends_on_evaluationId :
    (runPipeline Mode.outcome_joined none revC8a outC8).toOption.map Table.cols =
      some keepWithEvaluationId ∧
    (runPipeline Mode.outcome_joined none revC8b outC8).toOption.map Table.cols =
      some keepBase ∧
    keepWithEvaluationId ≠ keepBase :=
  ⟨by decide, by decide, by decide⟩

/-- C8 (amended): the `outcome_joined` output schema is the fixed twelve
column keep-list, with `evaluationId` inserted after `timestamp` exactly
when the merged table contains it; every keep-list column other than
`evaluationId` that is absent from the merged table is created as an
explicit all-null column. -/
theorem C8_amended_schema (m t : Table)
    (h : projectMode Mode.outcome_joined m = Except.ok t) :
    (t.cols = if m.cols.contains "evaluationId" = true then keepWithEvaluationId
              else keepBase) ∧
    (∀ c ∈ keepBase, c ∉ m.cols → ∀ r ∈ t.rows, r.getCell c = none) := by
  have ht : t = projectOutcomeJoined m := (Except.ok.inj h).symm
  subst ht
  by_cases heval : m.cols.contains "evaluationId" = true
  · have huf : projectOutcomeJoined m =
        (keepWithEvaluationId.foldl ojStep m).selectCols
          (keepWithEvaluationId.filter
            (fun c => (keepWithEvaluationId.foldl ojStep m).cols.contains c)) := by
      unfold projectOutcomeJoined
      rw [if_pos heval]
    rw [huf]
    have hall : ∀ c ∈ keepWithEvaluationId, c ∈ (keepWithEvaluationId.foldl ojStep m).cols := by
      intro c hc
      by_cases hcE : c = "evaluationId"
      · subst hcE
        exact (ojFold_eval_mem_iff _ m).mpr (by simpa using heval)
      · exact ojFold_mem_of_mem_keep _ m c hc hcE
    constructor
    · simp only [Table.selectCols]
      rw [oj_select_cols_eq _ m hall, if_pos heval]
    · intro c hc hcm
      have hcK : c ∈ keepWithEvaluationId := by
        fin_cases hc <;> decide
      have hcE : c ≠ "evaluationId" := by
        intro hh
        rw [hh] at hc
        exact (by decide : "evaluationId" ∉ keepBase) hc
      exact oj_select_rows_none _ m c _ hcK (by decide) hcE hcm
  · have huf : projectOutcomeJoined m =
        (keepBase.foldl ojStep m).selectCols
          (keepBase.filter (fun c => (keepBase.foldl ojStep m).cols.contains c)) := by
      unfold projectOutcomeJoined
      rw [if_neg heval]
    rw [huf]
    have hall : ∀ c ∈ keepBase, c ∈ (keepBase.foldl ojStep m).cols := by
      intro c hc
      have hcE : c ≠ "evaluationId" :=
        fun hh => (by decide : "evaluationId" ∉ keepBase) (hh ▸ hc)
      exact ojFold_mem_of_mem_keep _ m c hc hcE
    constructor
    · simp only [Table.selectCols]
      rw [oj_select_cols_eq _ m hall, if_neg heval]
    · intro c hc hcm
      have hcE : c ≠ "evaluationId" :=
        fun hh => (by decide : "evaluationId" ∉ keepBase) (hh ▸ hc)
      exact oj_select_rows_none _ m c _ hc (by decide) hcE hcm

/-- Fixture for the C8 witness: a small merged table with only the
mandatory columns and `outcome`. -/
def mC8w : Table :=
  { cols := ["tenantId", "opportunityId", "outcome"]
    rows := [[("tenantId", some (Value.str "t1")), ("opportunityId", some (Value.num 1)),
              ("outcome", none)]] }

/-- Witness for the amended C8: on a concrete merged table without
`evaluationId`, the output columns are exactly the base keep-list. -/
theorem C8_amended_schema_witness :
    (projectOutcomeJoined mC8w).cols = keepBase := by
  have h := C8_amended_schema mC8w (projectOutcomeJoined mC8w) rfl
  rw [h.1]
  decide

/-! ### Lemmas about output-path resolution -/

/-- Rebuilding a string from its character list is the identity. -/
theorem String_mk_data (s : String) : String.mk s.data = s := by
  cases s
  rfl

/-- Stripping trailing slashes from a path that ends in `.parquet` is the
identity. -/
theorem rstripSlash_of_endsWith_parquet (p : String)
    (hp : strEndsWith p ".parquet" = true) : rstripSlash p = p := by
  unfold strEndsWith at hp
  have hlit : ".parquet".data.reverse = ['t', 'e', 'u', 'q', 'r', 'a', 'p', '.'] := by decide
  rw [hlit] at hp
  rcases hrev : p.data.reverse with _ | ⟨a, as⟩
  · rw [hrev] at hp
    simp [listBeginsWith] at hp
  · rw [hrev] at hp
    simp only [listBeginsWith, Bool.and_eq_true, beq_iff_eq] at hp
    have ha : a = 't' := hp.1
    have hd : p.data.reverse.dropWhile (fun ch => ch = '/') = p.data.reverse := by
      rw [hrev, List.dropWhile_cons, if_neg (by rw [ha]; decide)]
    unfold rstripSlash rstripSlashList
    rw [hd, List.reverse_reverse, String_mk_data]

/-- C9: when the output path ends in `.parquet`, its parent is an existing
directory and a non-empty partition label is supplied, the writer resolves
the path to `dirname(P)/date=L/basename(P)`; in particular
`out/data.parquet` with label `2024-05-01` resolves to
`out/date=2024-05-01/data.parquet`. -/
theorem C9_partition_path (p l : String)
    (hp : strEndsWith p ".parquet" = true) (hl : l ≠ "") :
    resolveOutPath p (some l) true =
      joinPath (joinPath (dirname p) ("date=" ++ l)) (basename p) ∧
    resolveOutPath "out/data.parquet" (some "2024-05-01") true =
      "out/date=2024-05-01/data.parquet" := by
  refine ⟨?_, by decide⟩
  have hltrue : (l != "") = true := bne_iff_ne.mpr hl
  simp only [resolveOutPath]
  rw [if_pos (by simp [hltrue]), rstripSlash_of_endsWith_parquet p hp, if_pos hp]

/-- Witness for C9 at the Scenario D path and label. -/
theorem C9_partition_path_witness :
    resolveOutPath "out/data.parquet" (some "2024-05-01") true =
      joinPath (joinPath (dirname "out/data.parquet") ("date=" ++ "2024-05-01"))
        (basename "out/data.parquet") :=
  (C9_partition_path "out/data.parquet" "2024-05-01" (by decide) (by decide)).1

/-- C10: in `risk_scoring` and `win_probability` modes every output row
carries each of the seven placeholder feature columns at its constant
placeholder value, unconditionally — whatever those columns held in the
input is overwritten. -/
theorem C10_placeholders_constant (mode : Mode) (m t : Table)
    (hm : mode = Mode.risk_scoring ∨ mode = Mode.win_probability)
    (h : projectMode mode m = Except.ok t) :
    ∀ r ∈ t.rows, ∀ kv ∈ _PLACEHOLDER, r.getCell kv.1 = some (Value.num kv.2) := by
  intro r hr kv hkv
  rcases hm with hm | hm <;> subst hm
  · rw [projectRiskScoring_ok_shape m t h] at hr
    obtain ⟨f, hf⟩ := fillColOrConst_exists_map
      (setPlaceholders
        { cols := m.cols
          rows := m.rows.filter (fun r => (r.getCell "target_risk").isSome) }) "amount" 0
    obtain ⟨g, hg⟩ := setRiskScoreLatest_exists_map
      (fillColOrConst (setPlaceholders
        { cols := m.cols
          rows := m.rows.filter (fun r => (r.getCell "target_risk").isSome) }) "amount" 0)
    simp only [Table.selectCols, hg, hf, setPlaceholders_rows, List.map_map,
      List.mem_map] at hr
    rcases hr with ⟨r0, hr0, rfl⟩
    fin_cases hkv <;>
      simp [Row.getCell_mapRow, reqRisk, Row.getCell, placeholdersRow, _PLACEHOLDER]
  · rw [projectWinProbability_ok_shape m t h] at hr
    obtain ⟨f, hf⟩ := fillColOrConst_exists_map
      (setPlaceholders
        { cols := m.cols
          rows := (m.rows.filter
              (fun r => r.getCell "is_closed" == some (Value.num 1))).filter
            (fun r => (r.getCell "target_win").isSome) }) "amount" 0
    simp only [Table.selectCols, hf, setPlaceholders_rows, List.map_map,
      List.mem_map] at hr
    rcases hr with ⟨r0, hr0, rfl⟩
    fin_cases hkv <;>
      simp [Row.getCell_mapRow, reqWin, Row.getCell, placeholdersRow, _PLACEHOLDER]

/-- Fixture for the C10 witness: a merged table whose `probability` column
already carries a non-placeholder value (as after a prior enrichment). -/
def mC10w : Table :=
  { cols := ["tenantId", "opportunityId", "target_risk", "probability"]
    rows := [[("tenantId", some (Value.str "t1")), ("opportunityId", some (Value.num 1)),
              ("target_risk", some (Value.num (3/10))),
              ("probability", some (Value.num (9/10)))]] }

/-- The concrete output of the C10 witness run. -/
def t10w : Table :=
  (projectMode Mode.risk_scoring mC10w).toOption.getD { cols := [], rows := [] }

/-- Witness for C10: the pre-existing `probability` value 0.9 is overwritten
with the constant placeholder 0.5 in every output row. -/
theorem C10_placeholders_constant_witness :
    projectMode Mode.risk_scoring mC10w = Except.ok t10w ∧
    ∀ r ∈ t10w.rows, Row.getCell r "probability" = some (Value.num (1/2)) := by
  have hok : projectMode Mode.risk_scoring mC10w = Except.ok t10w := by rfl
  refine ⟨hok, ?_⟩
  intro r hr
  exact C10_placeholders_constant Mode.risk_scoring mC10w t10w (Or.inl rfl) hok r hr
    ("probability", 1/2) (List.mem_cons_self _ _)

end PrepareTrainingData
